import Mathlib

/-!
Verification of the class-scheduling core of the bolt_pole_booking repository.

The definitions below are a shallow embedding of the Zustand store module
(the state-management module containing addClass, updateClass, deleteClass,
enrollInClass, unenrollFromClass, fetchClasses, updateProfile) and of the
profile form schema.  Conventions of the embedding:

* Firestore document ids and user ids are Lean Strings; instants (JS Dates /
  ISO-8601 datetime strings) are modelled as Nat milliseconds.  Firestore
  range comparison on ISO strings is lexicographic, which coincides with the
  numeric order on the underlying instants, so `datetime >= cutoff` is
  modelled as `cutoff ≤ datetime`.
* The `classes` collection is a `List Class`; `getDoc` on a key is `find?`
  on the id field.  A Firestore batch (`writeBatch` … `commit`) is modelled
  as the single pure transformation it performs on the collection.
* JavaScript truthiness of an optional string field (`classData.baseId`,
  `user?.schoolId`, `currentPassword`, `newPassword`) is `strTruthy`:
  `null`/`undefined` and the empty string are falsy.
* Fresh identifier generation (`doc(collection(db,'classes')).id` and
  `crypto.randomUUID()`) is modelled by one injective supply `fid` driven by
  a Nat counter threaded through `addClass`.
* `throw new Error(msg)` is modelled by `Except.error msg`; a thrown error
  aborts the operation before any write, so no state change accompanies it.
-/

namespace Booking

/-- Class level, from `src/types/index.ts`. -/
inductive Level where
  | beginner
  | intermediate
  | advanced
deriving DecidableEq

/-- User role, from `src/types/index.ts`. -/
inductive Role where
  | student
  | teacher
deriving DecidableEq

/-- The `User` interface of `src/types/index.ts`. -/
structure User where
  id : String
  email : String
  name : String
  role : Role
  schoolId : Option String
deriving DecidableEq

/-- The `School` interface of `src/types/index.ts`. -/
structure School where
  id : String
  name : String
  address : String
  email : String
  logo : Option String
  instagram : Option String
  teacherIds : List String
deriving DecidableEq

/-- The `Class` interface of `src/types/index.ts`.  `baseId` is the series
marker (`baseId?: string | null`), `none` standing for both `undefined` and
`null`. -/
structure Class where
  id : String
  title : String
  teacherId : String
  datetime : Nat
  duration : Nat
  maxStudents : Nat
  enrolledStudents : List String
  isRecurring : Bool
  level : Level
  description : Option String
  baseId : Option String
  schoolId : String
deriving DecidableEq

/-- `Omit<Class, 'id'>`: the argument of `addClass`. -/
structure ClassDraft where
  title : String
  teacherId : String
  datetime : Nat
  duration : Nat
  maxStudents : Nat
  enrolledStudents : List String
  isRecurring : Bool
  level : Level
  description : Option String
  baseId : Option String
  schoolId : String
deriving DecidableEq

/-- JavaScript truthiness of an optional string: `null`/`undefined` and the
empty string are falsy, every other string is truthy. -/
def strTruthy : Option String → Bool
  | none => false
  | some s => !(s == "")

/-- The injective fresh-identifier supply modelling both
`doc(collection(db, 'classes')).id` and `crypto.randomUUID()`: identifier
number `n` is the nonempty string of `n + 1` letters `a`.  Distinct counter
values give distinct, nonempty identifiers, which is the property the real
generators provide. -/
def fid (n : Nat) : String :=
  String.mk (List.replicate (n + 1) 'a')

/-- One week in milliseconds (`date-fns` weekly stepping). -/
def weekMs : Nat := 7 * 86400000

/-- One year in milliseconds, modelling `addYears(startDate, 1)` of
`date-fns` (calendar-year addition; the model fixes 365 days — every proved
property below only uses that the horizon is strictly after the start). -/
def oneYearMs : Nat := 365 * 86400000

/-- Fuel-driven loop body of the occurrence generator: emit `cur` and step
one week while `cur` is strictly before `horizonEnd`. -/
def genDatesGo : Nat → Nat → Nat → List Nat
  | 0, _, _ => []
  | fuel + 1, cur, horizonEnd =>
    if cur < horizonEnd then cur :: genDatesGo fuel (cur + weekMs) horizonEnd
    else []

/-- Modelled from the spec: `generateRecurringDates` lives in
`src/utils/dateUtils`, which is not under `src/`; per spec §4.1 the
generator produces one occurrence per week, starting at `start` and
continuing while the computed instant is strictly before `horizonEnd`.
The fuel `horizonEnd - start + 1` dominates the number of loop iterations
because the weekly step is at least one millisecond. -/
def generateRecurringDates (startDate horizonEnd : Nat) : List Nat :=
  genDatesGo (horizonEnd - startDate + 1) startDate horizonEnd

/-- One persisted occurrence document of `addClass`'s recurring branch:
every field is copied from the draft except `id`, `datetime` and `baseId`,
which the loop overrides. -/
def mkOcc (draft : ClassDraft) (occId : String) (dt : Nat) (b : Option String) : Class :=
  { id := occId
    title := draft.title
    teacherId := draft.teacherId
    datetime := dt
    duration := draft.duration
    maxStudents := draft.maxStudents
    enrolledStudents := draft.enrolledStudents
    isRecurring := draft.isRecurring
    level := draft.level
    description := draft.description
    baseId := b
    schoolId := draft.schoolId }

/-- The `dates.forEach((date, index) => …)` loop of `addClass`: occurrence
`index` gets a fresh document id from the supply and
`baseId = index === 0 ? null : baseId`. -/
def seriesDocs (draft : ClassDraft) (b : String) : Nat → Nat → List Nat → List Class
  | _, _, [] => []
  | supply, idx, d :: ds =>
    mkOcc draft (fid supply) d (if idx = 0 then none else some b) ::
      seriesDocs draft b (supply + 1) (idx + 1) ds

/-- `addClass` of the store module.  Returns the new `classes` collection
and the advanced id-supply counter.  The non-recurring branch persists the
single document under the pre-allocated `classRef.id`; the recurring branch
allocates a fresh `baseId` (`crypto.randomUUID()`) and persists one document
per generated date in one batch. -/
def addClass (db : List Class) (supply : Nat) (draft : ClassDraft) : List Class × Nat :=
  let classRefId := fid supply
  if draft.isRecurring then
    let startDate := draft.datetime
    let endDate := startDate + oneYearMs
    let dates := generateRecurringDates startDate endDate
    let b := fid (supply + 1)
    (db ++ seriesDocs draft b (supply + 2) 0 dates, supply + 2 + dates.length)
  else
    (db ++ [mkOcc draft classRefId draft.datetime draft.baseId], supply + 1)

/-- `getDoc(doc(db, 'classes', classId))`: lookup of the document stored
under key `classId` in the `classes` collection. -/
def getDoc (db : List Class) (classId : String) : Option Class :=
  db.find? (fun c => c.id == classId)

/-- `Partial<Class>`: the patch argument of `updateClass`.  A `some` field is
present in the patch and overwrites the stored field; `none` leaves it
alone.  (`description` and `baseId` are themselves optional on `Class`, so
their patch slots carry the new stored value.) -/
structure ClassPatch where
  id : Option String := none
  title : Option String := none
  teacherId : Option String := none
  datetime : Option Nat := none
  duration : Option Nat := none
  maxStudents : Option Nat := none
  enrolledStudents : Option (List String) := none
  isRecurring : Option Bool := none
  level : Option Level := none
  description : Option (Option String) := none
  baseId : Option (Option String) := none
  schoolId : Option String := none
deriving DecidableEq

/-- Firestore `update(ref, patch)` field merging: each field named in the
patch replaces the stored field, the rest of the document is kept. -/
def applyPatch (c : Class) (p : ClassPatch) : Class :=
  { id := p.id.getD c.id
    title := p.title.getD c.title
    teacherId := p.teacherId.getD c.teacherId
    datetime := p.datetime.getD c.datetime
    duration := p.duration.getD c.duration
    maxStudents := p.maxStudents.getD c.maxStudents
    enrolledStudents := p.enrolledStudents.getD c.enrolledStudents
    isRecurring := p.isRecurring.getD c.isRecurring
    level := p.level.getD c.level
    description := p.description.getD c.description
    baseId := p.baseId.getD c.baseId
    schoolId := p.schoolId.getD c.schoolId }

/-- The membership predicate of the cascade query
`where('baseId', '==', key) ∧ where('datetime', '>=', cutoff)`. -/
abbrev inCascade (key : Option String) (cutoff : Nat) (c : Class) : Prop :=
  c.baseId = key ∧ cutoff ≤ c.datetime

/-- `updateClass(classId, updatedClass, updateRecurring)` of the store
module.  `now` is the wall-clock instant read by `new Date()` inside the
operation. -/
def updateClass (db : List Class) (now : Nat) (classId : String)
    (updatedClass : ClassPatch) (updateRecurring : Bool) :
    Except String (List Class) :=
  match getDoc db classId with
  | none => Except.error "Class not found"
  | some classData =>
    if updateRecurring && strTruthy classData.baseId then
      Except.ok (db.map fun c =>
        if inCascade classData.baseId now c then applyPatch c updatedClass else c)
    else
      Except.ok (db.map fun c => if c.id = classId then applyPatch c updatedClass else c)

/-- `deleteClass(classId, deleteRecurring)` of the store module.  `now` is
the wall-clock instant read by `new Date()` inside the operation. -/
def deleteClass (db : List Class) (now : Nat) (classId : String)
    (deleteRecurring : Bool) : Except String (List Class) :=
  match getDoc db classId with
  | none => Except.error "Class not found"
  | some classData =>
    if deleteRecurring && strTruthy classData.baseId then
      Except.ok (db.filter fun c => !(decide (inCascade classData.baseId now c)))
    else
      Except.ok (db.filter fun c => !(c.id == classId))

/-- Firestore `arrayUnion(x)` on a membership array: append `x` if absent,
else leave the array unchanged. -/
def arrayUnion (l : List String) (x : String) : List String :=
  if x ∈ l then l else l ++ [x]

/-- Firestore `arrayRemove(x)` on a membership array: remove every
occurrence of `x`. -/
def arrayRemove (l : List String) (x : String) : List String :=
  l.filter (fun y => !(y == x))

/-- `enrollInClass(classId, userId, enrollAll)` of the store module.  The
cascade cutoff is the target document's own `datetime` (no wall-clock read
happens in this operation). -/
def enrollInClass (db : List Class) (classId userId : String) (enrollAll : Bool) :
    Except String (List Class) :=
  match getDoc db classId with
  | none => Except.error "Class not found"
  | some classData =>
    if enrollAll && strTruthy classData.baseId then
      Except.ok (db.map fun c =>
        if inCascade classData.baseId classData.datetime c then
          { c with enrolledStudents := arrayUnion c.enrolledStudents userId }
        else c)
    else
      Except.ok (db.map fun c =>
        if c.id = classId then
          { c with enrolledStudents := arrayUnion c.enrolledStudents userId }
        else c)

/-- `unenrollFromClass(classId, userId, unenrollAll)` of the store module:
mirror of `enrollInClass` with `arrayRemove`. -/
def unenrollFromClass (db : List Class) (classId userId : String) (unenrollAll : Bool) :
    Except String (List Class) :=
  match getDoc db classId with
  | none => Except.error "Class not found"
  | some classData =>
    if unenrollAll && strTruthy classData.baseId then
      Except.ok (db.map fun c =>
        if inCascade classData.baseId classData.datetime c then
          { c with enrolledStudents := arrayRemove c.enrolledStudents userId }
        else c)
    else
      Except.ok (db.map fun c =>
        if c.id = classId then
          { c with enrolledStudents := arrayRemove c.enrolledStudents userId }
        else c)

/-- The published in-memory state held by the Zustand store. -/
structure StoreState where
  user : Option User
  school : Option School
  classes : List Class
  isLoading : Bool
deriving DecidableEq

/-- `fetchClasses()` of the store module: refreshes the published upcoming
class list for the current user's school.  `if (!user?.schoolId) return;`
is the truthiness guard on the optional chain.  The repository read is
modelled as pure, so the guard path visibly performs no store access:  the
result does not depend on `db`. -/
def fetchClasses (st : StoreState) (db : List Class) (now : Nat) : StoreState :=
  match st.user with
  | none => st
  | some u =>
    match u.schoolId with
    | none => st
    | some sid =>
      if sid = "" then st
      else
        { st with classes :=
            db.filter fun c => decide (c.schoolId = sid ∧ now ≤ c.datetime) }

/-- The argument record of `updateProfile`. -/
structure ProfileUpdate where
  name : String
  email : String
  currentPassword : Option String
  newPassword : Option String
deriving DecidableEq

/-- `updateProfile({name, email, currentPassword, newPassword})` of the
store module.  `authEmail` is `auth.currentUser` (its email), `reauthOk`
models the identity collaborator's `reauthenticateWithCredential` outcome
for a supplied current password, and the `users`-collection document write
is mirrored by the published `st.user` update, exactly as in the source. -/
def updateProfile (st : StoreState) (authEmail : Option String)
    (reauthOk : String → Bool) (d : ProfileUpdate) : Except String StoreState :=
  match st.user, authEmail with
  | some user, some _ =>
    if d.email ≠ user.email ∨ strTruthy d.newPassword then
      if strTruthy d.currentPassword then
        if reauthOk (d.currentPassword.getD "") then
          let newEmail := if d.email ≠ user.email then d.email else user.email
          Except.ok { st with user := some { user with name := d.name, email := newEmail } }
        else Except.error "reauthentication failed"
      else Except.error "Mot de passe actuel requis pour modifier email ou mot de passe"
    else
      Except.ok { st with user := some { user with name := d.name } }
  | _, _ => Except.error "Utilisateur non connecté"

/-- The form values validated by `createProfileSchema` in the profile
component. -/
structure ProfileInputs where
  name : String
  email : String
  currentPassword : Option String
  newPassword : Option String
  confirmPassword : Option String
deriving DecidableEq

/-- The `superRefine` callback of `createProfileSchema(initialEmail)` in the
profile component: the list of field paths it attaches issues to.  (The
base object checks `name.min(2)` and the email format; the custom
credential checks modelled here are the ones the claims are about.) -/
def profileSchemaIssues (initialEmail : String) (d : ProfileInputs) : List String :=
  (if (d.email ≠ initialEmail ∨ strTruthy d.newPassword) ∧ ¬ strTruthy d.currentPassword
   then ["currentPassword"] else []) ++
  (if strTruthy d.newPassword then
    (if (d.newPassword.getD "").length < 6 then ["newPassword"] else []) ++
      (if d.newPassword ≠ d.confirmPassword then ["confirmPassword"] else [])
   else [])

/-- `isFull` of `ClassCard.tsx`:
`classData.enrolledStudents.length >= classData.maxStudents` — the caller's
pre-check that disables single-occurrence enrollment. -/
def isFull (c : Class) : Bool :=
  c.maxStudents ≤ c.enrolledStudents.length

/-- A same-series pair of occurrences used to exhibit the capacity gap: the
earlier occurrence `demoA` is empty, the later occurrence `demoB` is already
at its capacity of one student. -/
def demoA : Class :=
  { id := "A", title := "pole", teacherId := "T", datetime := 100, duration := 60,
    maxStudents := 1, enrolledStudents := [], isRecurring := true,
    level := Level.beginner, description := none, baseId := some "s",
    schoolId := "sch" }

/-- See `demoA`. -/
def demoB : Class :=
  { id := "B", title := "pole", teacherId := "T", datetime := 200, duration := 60,
    maxStudents := 1, enrolledStudents := ["v"], isRecurring := true,
    level := Level.beginner, description := none, baseId := some "s",
    schoolId := "sch" }

/-- A concrete recurring draft used by the witnesses below. -/
def draftSpec : ClassDraft :=
  { title := "pole", teacherId := "T", datetime := 1000, duration := 60,
    maxStudents := 8, enrolledStudents := [], isRecurring := true,
    level := Level.beginner, description := none, baseId := none,
    schoolId := "sch" }

/-- A concrete student user without a school, used by the witnesses below. -/
def userSpec : User :=
  { id := "U", email := "a@x", name := "N", role := Role.student, schoolId := none }

/-- A concrete published state whose current user is `userSpec`. -/
def stSpec : StoreState :=
  { user := some userSpec, school := none, classes := [], isLoading := false }

/-- A concrete published state with no current user. -/
def stNoUser : StoreState :=
  { user := none, school := none, classes := [demoA], isLoading := true }

/-- A concrete profile update changing the email without supplying the
current password. -/
def updSpec : ProfileUpdate :=
  { name := "N", email := "b@x", currentPassword := none, newPassword := none }

theorem fid_inj {m n : Nat} (h : fid m = fid n) : m = n := by
  have h2 : (fid m).data.length = (fid n).data.length := by rw [h]
  simpa [fid] using h2

theorem fid_ne_empty (n : Nat) : fid n ≠ "" := by
  intro h
  have h2 : (fid n).data.length = ("" : String).data.length := by rw [h]
  simp [fid] at h2

theorem map_eq_self_of {α : Type} {f : α → α} :
    ∀ {l : List α}, (∀ x ∈ l, f x = x) → l.map f = l
  | [], _ => rfl
  | x :: xs, h => by
    have hx : f x = x := h x (List.mem_cons_self x xs)
    have hxs : xs.map f = xs := map_eq_self_of fun y hy => h y (List.mem_cons_of_mem x hy)
    simp [hx, hxs]

theorem genDatesGo_mem {f cur horizonEnd x : Nat}
    (hx : x ∈ genDatesGo f cur horizonEnd) : cur ≤ x ∧ x < horizonEnd := by
  induction f generalizing cur with
  | zero => simp [genDatesGo] at hx
  | succ f ih =>
    simp only [genDatesGo] at hx
    split at hx
    · rcases List.mem_cons.mp hx with rfl | hx2
      · exact ⟨Nat.le_refl x, by assumption⟩
      · have h2 := ih hx2
        exact ⟨Nat.le_trans (Nat.le_add_right cur weekMs) h2.1, h2.2⟩
    · simp at hx

theorem genDatesGo_head {f cur horizonEnd : Nat} :
    ∀ y ∈ (genDatesGo f cur horizonEnd).head?, y = cur := by
  cases f with
  | zero => simp [genDatesGo]
  | succ f =>
    simp only [genDatesGo]
    split
    · simp
    · simp

theorem genDatesGo_chain (f cur horizonEnd : Nat) :
    List.Chain' (fun a b => b = a + weekMs) (genDatesGo f cur horizonEnd) := by
  induction f generalizing cur with
  | zero => exact List.chain'_nil
  | succ f ih =>
    simp only [genDatesGo]
    split
    · exact List.chain'_cons'.mpr ⟨fun y hy => genDatesGo_head y hy, ih _⟩
    · exact List.chain'_nil

theorem genDatesGo_cons {f cur horizonEnd : Nat} (h : cur < horizonEnd) :
    genDatesGo (f + 1) cur horizonEnd =
      cur :: genDatesGo f (cur + weekMs) horizonEnd := by
  simp [genDatesGo, h]

theorem generateRecurringDates_chain (startDate horizonEnd : Nat) :
    List.Chain' (fun a b => b = a + weekMs)
      (generateRecurringDates startDate horizonEnd) :=
  genDatesGo_chain _ _ _

theorem generateRecurringDates_mem {startDate horizonEnd x : Nat}
    (hx : x ∈ generateRecurringDates startDate horizonEnd) :
    startDate ≤ x ∧ x < horizonEnd :=
  genDatesGo_mem hx

theorem generateRecurringDates_head {startDate horizonEnd : Nat}
    (h : startDate < horizonEnd) :
    ∃ t, generateRecurringDates startDate horizonEnd = startDate :: t := by
  have h1 : horizonEnd - startDate + 1 = (horizonEnd - startDate) + 1 := rfl
  refine ⟨genDatesGo (horizonEnd - startDate) (startDate + weekMs) horizonEnd, ?_⟩
  unfold generateRecurringDates
  rw [h1, genDatesGo_cons h]

theorem generateRecurringDates_sorted (startDate horizonEnd : Nat) :
    List.Pairwise (fun a b => a < b)
      (generateRecurringDates startDate horizonEnd) := by
  have h1 := generateRecurringDates_chain startDate horizonEnd
  have h2 : List.Chain' (fun a b : Nat => a < b)
      (generateRecurringDates startDate horizonEnd) := by
    refine List.Chain'.imp ?_ h1
    intro a b hab
    subst hab
    have : 0 < weekMs := by norm_num [weekMs]
    omega
  exact List.chain'_iff_pairwise.mp h2

theorem seriesDocs_getElem? (draft : ClassDraft) (b : String) :
    ∀ (ds : List Nat) (s i j : Nat),
      (seriesDocs draft b s i ds)[j]? =
        (ds[j]?).map fun d =>
          mkOcc draft (fid (s + j)) d (if i + j = 0 then none else some b)
  | [], _, _, _ => by simp [seriesDocs]
  | _ :: _, s, i, 0 => by simp [seriesDocs]
  | _ :: ds, s, i, j + 1 => by
    simp only [seriesDocs, List.getElem?_cons_succ,
      seriesDocs_getElem? draft b ds (s + 1) (i + 1) j]
    have h1 : s + 1 + j = s + (j + 1) := by omega
    have h2 : i + 1 + j = i + (j + 1) := by omega
    rw [h1, h2]

theorem seriesDocs_map_datetime (draft : ClassDraft) (b : String) :
    ∀ (ds : List Nat) (s i : Nat),
      (seriesDocs draft b s i ds).map (fun c => c.datetime) = ds
  | [], _, _ => rfl
  | d :: ds, s, i => by
    simp [seriesDocs, mkOcc, seriesDocs_map_datetime draft b ds (s + 1) (i + 1)]

theorem addClass_recurring (db : List Class) (supply : Nat) (draft : ClassDraft)
    (hrec : draft.isRecurring = true) :
    (addClass db supply draft).1 =
      db ++ seriesDocs draft (fid (supply + 1)) (supply + 2) 0
        (generateRecurringDates draft.datetime (draft.datetime + oneYearMs)) := by
  simp [addClass, hrec]

/-- C1: in a recurring series creation, the first generated occurrence is
persisted with `baseId = null`, every later occurrence carries one common
freshly generated `baseId`, and that value is distinct from the id of every
occurrence of the series. -/
theorem addClass_series_identity (db : List Class) (supply : Nat)
    (draft : ClassDraft) (hrec : draft.isRecurring = true) :
    ∃ docs b,
      (addClass db supply draft).1 = db ++ docs ∧
      docs ≠ [] ∧
      (docs[0]?).map (fun c => c.baseId) = some none ∧
      (∀ j c, docs[j]? = some c → 1 ≤ j → c.baseId = some b) ∧
      ∀ c ∈ docs, c.id ≠ b := by
  set S := draft.datetime with hS
  set dates := generateRecurringDates S (S + oneYearMs) with hdates
  set b := fid (supply + 1) with hb
  refine ⟨seriesDocs draft b (supply + 2) 0 dates, b,
    addClass_recurring db supply draft hrec, ?_, ?_, ?_, ?_⟩
  · have hpos : S < S + oneYearMs := by norm_num [oneYearMs]
    obtain ⟨t, ht⟩ := generateRecurringDates_head hpos
    rw [← hdates] at ht
    rw [ht]
    simp [seriesDocs]
  · have hpos : S < S + oneYearMs := by norm_num [oneYearMs]
    obtain ⟨t, ht⟩ := generateRecurringDates_head hpos
    rw [← hdates] at ht
    rw [seriesDocs_getElem?, ht]
    simp [mkOcc]
  · intro j c hj hj1
    rw [seriesDocs_getElem?] at hj
    obtain ⟨d, _, hcd⟩ := Option.map_eq_some'.mp hj
    rw [← hcd]
    simp only [mkOcc]
    have hne : ¬ (0 + j = 0) := by omega
    rw [if_neg hne]
  · intro c hc hid
    obtain ⟨j, hj⟩ := List.mem_iff_getElem?.mp hc
    rw [seriesDocs_getElem?] at hj
    obtain ⟨d, _, hcd⟩ := Option.map_eq_some'.mp hj
    have hcid : c.id = fid (supply + 2 + j) := by
      rw [← hcd]
      rfl
    rw [hcid, hb] at hid
    have := fid_inj hid
    omega

/-- Witness for C1 at a concrete recurring draft. -/
theorem addClass_series_identity_witness :
    ∃ docs b,
      (addClass [] 0 draftSpec).1 = [] ++ docs ∧
      docs ≠ [] ∧
      (docs[0]?).map (fun c => c.baseId) = some none ∧
      (∀ j c, docs[j]? = some c → 1 ≤ j → c.baseId = some b) ∧
      ∀ c ∈ docs, c.id ≠ b :=
  addClass_series_identity [] 0 draftSpec rfl

/-- C5: a recurring creation with start `S` and the one-year horizon
`S + oneYearMs` persists occurrences whose datetimes are exactly the
generated sequence, and that sequence is non-empty, begins at `S`, steps by
exactly one week between consecutive occurrences, is strictly increasing,
and stays inside `[S, S + oneYearMs)`.  (The sequence is a pure function of
the input, hence deterministic, and a `List`, hence finite.) -/
theorem addClass_occurrence_sequence (db : List Class) (supply : Nat)
    (draft : ClassDraft) (hrec : draft.isRecurring = true) :
    ∃ docs,
      (addClass db supply draft).1 = db ++ docs ∧
      docs.map (fun c => c.datetime) =
        generateRecurringDates draft.datetime (draft.datetime + oneYearMs) ∧
      (∃ t, generateRecurringDates draft.datetime (draft.datetime + oneYearMs) =
        draft.datetime :: t) ∧
      List.Chain' (fun a b => b = a + weekMs)
        (generateRecurringDates draft.datetime (draft.datetime + oneYearMs)) ∧
      List.Pairwise (fun a b => a < b)
        (generateRecurringDates draft.datetime (draft.datetime + oneYearMs)) ∧
      ∀ x ∈ generateRecurringDates draft.datetime (draft.datetime + oneYearMs),
        draft.datetime ≤ x ∧ x < draft.datetime + oneYearMs := by
  refine ⟨seriesDocs draft (fid (supply + 1)) (supply + 2) 0
      (generateRecurringDates draft.datetime (draft.datetime + oneYearMs)),
    addClass_recurring db supply draft hrec,
    seriesDocs_map_datetime _ _ _ _ _,
    generateRecurringDates_head (by norm_num [oneYearMs]),
    generateRecurringDates_chain _ _,
    generateRecurringDates_sorted _ _,
    fun x hx => generateRecurringDates_mem hx⟩

/-- Witness for C5 at a concrete recurring draft. -/
theorem addClass_occurrence_sequence_witness :
    ∃ docs,
      (addClass [] 0 draftSpec).1 = [] ++ docs ∧
      docs.map (fun c => c.datetime) =
        generateRecurringDates draftSpec.datetime (draftSpec.datetime + oneYearMs) ∧
      (∃ t, generateRecurringDates draftSpec.datetime (draftSpec.datetime + oneYearMs) =
        draftSpec.datetime :: t) ∧
      List.Chain' (fun a b => b = a + weekMs)
        (generateRecurringDates draftSpec.datetime (draftSpec.datetime + oneYearMs)) ∧
      List.Pairwise (fun a b => a < b)
        (generateRecurringDates draftSpec.datetime (draftSpec.datetime + oneYearMs)) ∧
      ∀ x ∈ generateRecurringDates draftSpec.datetime (draftSpec.datetime + oneYearMs),
        draftSpec.datetime ≤ x ∧ x < draftSpec.datetime + oneYearMs :=
  addClass_occurrence_sequence [] 0 draftSpec rfl

theorem getDoc_mem {db : List Class} {classId : String} {c : Class}
    (h : getDoc db classId = some c) : c ∈ db :=
  List.mem_of_find?_eq_some h

theorem strTruthy_of_ne {b : String} (hbne : b ≠ "") :
    strTruthy (some b) = true := by
  simp [strTruthy, hbne]

theorem updateClass_notFound {db : List Class} {now : Nat} {classId : String}
    {p : ClassPatch} {r : Bool} (h : getDoc db classId = none) :
    updateClass db now classId p r = Except.error "Class not found" := by
  simp [updateClass, h]

theorem deleteClass_notFound {db : List Class} {now : Nat} {classId : String}
    {r : Bool} (h : getDoc db classId = none) :
    deleteClass db now classId r = Except.error "Class not found" := by
  simp [deleteClass, h]

theorem enrollInClass_notFound {db : List Class} {classId userId : String}
    {r : Bool} (h : getDoc db classId = none) :
    enrollInClass db classId userId r = Except.error "Class not found" := by
  simp [enrollInClass, h]

theorem unenrollFromClass_notFound {db : List Class} {classId userId : String}
    {r : Bool} (h : getDoc db classId = none) :
    unenrollFromClass db classId userId r = Except.error "Class not found" := by
  simp [unenrollFromClass, h]

theorem updateClass_series_eq {db : List Class} {now : Nat} {classId : String}
    {p : ClassPatch} {c : Class} {b : String}
    (h : getDoc db classId = some c) (hb : c.baseId = some b) (hbne : b ≠ "") :
    updateClass db now classId p true =
      Except.ok (db.map fun x =>
        if inCascade (some b) now x then applyPatch x p else x) := by
  simp [updateClass, h, hb, strTruthy_of_ne hbne]

theorem updateClass_single_eq {db : List Class} {now : Nat} {classId : String}
    {p : ClassPatch} {c : Class} {r : Bool}
    (h : getDoc db classId = some c) (hcond : (r && strTruthy c.baseId) = false) :
    updateClass db now classId p r =
      Except.ok (db.map fun x => if x.id = classId then applyPatch x p else x) := by
  simp [updateClass, h, hcond]

theorem deleteClass_series_eq {db : List Class} {now : Nat} {classId : String}
    {c : Class} {b : String}
    (h : getDoc db classId = some c) (hb : c.baseId = some b) (hbne : b ≠ "") :
    deleteClass db now classId true =
      Except.ok (db.filter fun x => !(decide (inCascade (some b) now x))) := by
  simp [deleteClass, h, hb, strTruthy_of_ne hbne]

theorem deleteClass_single_eq {db : List Class} {now : Nat} {classId : String}
    {c : Class} {r : Bool}
    (h : getDoc db classId = some c) (hcond : (r && strTruthy c.baseId) = false) :
    deleteClass db now classId r =
      Except.ok (db.filter fun x => !(x.id == classId)) := by
  simp [deleteClass, h, hcond]

theorem enrollInClass_series_eq {db : List Class} {classId userId : String}
    {c : Class} {b : String}
    (h : getDoc db classId = some c) (hb : c.baseId = some b) (hbne : b ≠ "") :
    enrollInClass db classId userId true =
      Except.ok (db.map fun x =>
        if inCascade (some b) c.datetime x then
          { x with enrolledStudents := arrayUnion x.enrolledStudents userId }
        else x) := by
  simp [enrollInClass, h, hb, strTruthy_of_ne hbne]

theorem unenrollFromClass_series_eq {db : List Class} {classId userId : String}
    {c : Class} {b : String}
    (h : getDoc db classId = some c) (hb : c.baseId = some b) (hbne : b ≠ "") :
    unenrollFromClass db classId userId true =
      Except.ok (db.map fun x =>
        if inCascade (some b) c.datetime x then
          { x with enrolledStudents := arrayRemove x.enrolledStudents userId }
        else x) := by
  simp [unenrollFromClass, h, hb, strTruthy_of_ne hbne]

/-- C2: update/delete resolution.  A missing target id fails with
`Class not found` (the failure happens before any write, so nothing
changes).  With `applyToSeries` and a non-null (truthy) `seriesId`, the
patch (resp. deletion) lands, in the one batched write, on exactly the
same-series documents whose `datetime` is at or after the wall-clock
instant `now` read inside the operation; otherwise it lands on the single
target document alone. -/
theorem updateDeleteClass_resolution :
    (∀ (db : List Class) (now : Nat) (classId : String) (p : ClassPatch) (r : Bool),
      getDoc db classId = none →
        updateClass db now classId p r = Except.error "Class not found") ∧
    (∀ (db : List Class) (now : Nat) (classId : String) (r : Bool),
      getDoc db classId = none →
        deleteClass db now classId r = Except.error "Class not found") ∧
    (∀ (db : List Class) (now : Nat) (classId : String) (p : ClassPatch)
        (c : Class) (b : String),
      getDoc db classId = some c → c.baseId = some b → b ≠ "" →
        ∃ db2, updateClass db now classId p true = Except.ok db2 ∧
          ∀ j : Nat, db2[j]? = (db[j]?).map fun x =>
            if x.baseId = some b ∧ now ≤ x.datetime then applyPatch x p else x) ∧
    (∀ (db : List Class) (now : Nat) (classId : String) (c : Class) (b : String),
      getDoc db classId = some c → c.baseId = some b → b ≠ "" →
        ∃ db2, deleteClass db now classId true = Except.ok db2 ∧
          ∀ x, x ∈ db2 ↔ x ∈ db ∧ ¬(x.baseId = some b ∧ now ≤ x.datetime)) ∧
    (∀ (db : List Class) (now : Nat) (classId : String) (p : ClassPatch)
        (c : Class) (r : Bool),
      getDoc db classId = some c → (r = false ∨ c.baseId = none) →
        ∃ db2, updateClass db now classId p r = Except.ok db2 ∧
          ∀ j : Nat, db2[j]? = (db[j]?).map fun x =>
            if x.id = classId then applyPatch x p else x) ∧
    (∀ (db : List Class) (now : Nat) (classId : String) (c : Class) (r : Bool),
      getDoc db classId = some c → (r = false ∨ c.baseId = none) →
        ∃ db2, deleteClass db now classId r = Except.ok db2 ∧
          ∀ x, x ∈ db2 ↔ x ∈ db ∧ x.id ≠ classId) := by
  refine ⟨?_, ?_, ?_, ?_, ?_, ?_⟩
  · intro db now classId p r h
    exact updateClass_notFound h
  · intro db now classId r h
    exact deleteClass_notFound h
  · intro db now classId p c b h hb hbne
    refine ⟨_, updateClass_series_eq h hb hbne, ?_⟩
    intro j
    rw [List.getElem?_map]
  · intro db now classId c b h hb hbne
    refine ⟨_, deleteClass_series_eq h hb hbne, ?_⟩
    intro x
    simp [List.mem_filter, inCascade]
    tauto
  · intro db now classId p c r h hr
    have hcond : (r && strTruthy c.baseId) = false := by
      rcases hr with rfl | hb
      · rfl
      · simp [hb, strTruthy]
    refine ⟨_, updateClass_single_eq h hcond, ?_⟩
    intro j
    rw [List.getElem?_map]
  · intro db now classId c r h hr
    have hcond : (r && strTruthy c.baseId) = false := by
      rcases hr with rfl | hb
      · rfl
      · simp [hb, strTruthy]
    refine ⟨_, deleteClass_single_eq h hcond, ?_⟩
    intro x
    simp [List.mem_filter]

/-- Witness for C2 on the concrete two-document store `[demoA, demoB]`. -/
theorem updateDeleteClass_resolution_witness :
    updateClass [] 5 "Z" { title := some "new" } false =
      Except.error "Class not found" ∧
    deleteClass [] 5 "Z" false = Except.error "Class not found" ∧
    (∃ db2, updateClass [demoA, demoB] 150 "A" { title := some "new" } true =
        Except.ok db2 ∧
      ∀ j : Nat, db2[j]? = (([demoA, demoB] : List Class)[j]?).map fun x =>
        if x.baseId = some "s" ∧ 150 ≤ x.datetime then
          applyPatch x { title := some "new" } else x) ∧
    (∃ db2, deleteClass [demoA, demoB] 150 "A" true = Except.ok db2 ∧
      ∀ x, x ∈ db2 ↔ x ∈ ([demoA, demoB] : List Class) ∧
        ¬(x.baseId = some "s" ∧ 150 ≤ x.datetime)) ∧
    (∃ db2, updateClass [demoA, demoB] 150 "A" { title := some "new" } false =
        Except.ok db2 ∧
      ∀ j : Nat, db2[j]? = (([demoA, demoB] : List Class)[j]?).map fun x =>
        if x.id = "A" then applyPatch x { title := some "new" } else x) ∧
    (∃ db2, deleteClass [demoA, demoB] 150 "A" false = Except.ok db2 ∧
      ∀ x, x ∈ db2 ↔ x ∈ ([demoA, demoB] : List Class) ∧ x.id ≠ "A") :=
  ⟨updateDeleteClass_resolution.1 [] 5 "Z" { title := some "new" } false rfl,
   updateDeleteClass_resolution.2.1 [] 5 "Z" false rfl,
   updateDeleteClass_resolution.2.2.1 [demoA, demoB] 150 "A" { title := some "new" }
     demoA "s" (by decide) rfl (by decide),
   updateDeleteClass_resolution.2.2.2.1 [demoA, demoB] 150 "A" demoA "s"
     (by decide) rfl (by decide),
   updateDeleteClass_resolution.2.2.2.2.1 [demoA, demoB] 150 "A"
     { title := some "new" } demoA false (by decide) (Or.inl rfl),
   updateDeleteClass_resolution.2.2.2.2.2 [demoA, demoB] 150 "A" demoA false
     (by decide) (Or.inl rfl)⟩

/-- C3: series enroll/unenroll on an existing class with a non-null
(truthy) `seriesId` changes membership on exactly the same-series documents
whose `datetime` is at or after the **target's own** `datetime`, and on no
other document.  No wall-clock instant enters the operation at all — the
cutoff basis differs from update/delete. -/
theorem enrollment_series_cutoff :
    (∀ (db : List Class) (classId userId : String) (c : Class) (b : String),
      getDoc db classId = some c → c.baseId = some b → b ≠ "" →
        ∃ db2, enrollInClass db classId userId true = Except.ok db2 ∧
          ∀ j : Nat, db2[j]? = (db[j]?).map fun x =>
            if x.baseId = some b ∧ c.datetime ≤ x.datetime then
              { x with enrolledStudents := arrayUnion x.enrolledStudents userId }
            else x) ∧
    (∀ (db : List Class) (classId userId : String) (c : Class) (b : String),
      getDoc db classId = some c → c.baseId = some b → b ≠ "" →
        ∃ db2, unenrollFromClass db classId userId true = Except.ok db2 ∧
          ∀ j : Nat, db2[j]? = (db[j]?).map fun x =>
            if x.baseId = some b ∧ c.datetime ≤ x.datetime then
              { x with enrolledStudents := arrayRemove x.enrolledStudents userId }
            else x) := by
  constructor
  · intro db classId userId c b h hb hbne
    refine ⟨_, enrollInClass_series_eq h hb hbne, ?_⟩
    intro j
    rw [List.getElem?_map]
  · intro db classId userId c b h hb hbne
    refine ⟨_, unenrollFromClass_series_eq h hb hbne, ?_⟩
    intro j
    rw [List.getElem?_map]

/-- Witness for C3 on the concrete two-document store `[demoA, demoB]`. -/
theorem enrollment_series_cutoff_witness :
    (∃ db2, enrollInClass [demoA, demoB] "A" "u" true = Except.ok db2 ∧
      ∀ j : Nat, db2[j]? = (([demoA, demoB] : List Class)[j]?).map fun x =>
        if x.baseId = some "s" ∧ demoA.datetime ≤ x.datetime then
          { x with enrolledStudents := arrayUnion x.enrolledStudents "u" }
        else x) ∧
    (∃ db2, unenrollFromClass [demoA, demoB] "B" "v" true = Except.ok db2 ∧
      ∀ j : Nat, db2[j]? = (([demoA, demoB] : List Class)[j]?).map fun x =>
        if x.baseId = some "s" ∧ demoB.datetime ≤ x.datetime then
          { x with enrolledStudents := arrayRemove x.enrolledStudents "v" }
        else x) :=
  ⟨enrollment_series_cutoff.1 [demoA, demoB] "A" "u" demoA "s"
      (by decide) rfl (by decide),
   enrollment_series_cutoff.2 [demoA, demoB] "B" "v" demoB "s"
      (by decide) rfl (by decide)⟩

/-- C4: a series update/delete aimed at the first occurrence of a series
(`seriesId` null) touches only the single targeted document; every other
document, including the rest of the series, is untouched. -/
theorem first_occurrence_single_scope :
    (∀ (db : List Class) (now : Nat) (classId : String) (p : ClassPatch)
        (c : Class),
      getDoc db classId = some c → c.baseId = none →
        ∃ db2, updateClass db now classId p true = Except.ok db2 ∧
          (∀ (j : Nat) (x : Class), db[j]? = some x → x.id = classId →
            db2[j]? = some (applyPatch x p)) ∧
          (∀ (j : Nat) (x : Class), db[j]? = some x → x.id ≠ classId → db2[j]? = some x)) ∧
    (∀ (db : List Class) (now : Nat) (classId : String) (c : Class),
      getDoc db classId = some c → c.baseId = none →
        ∃ db2, deleteClass db now classId true = Except.ok db2 ∧
          ∀ x, x ∈ db2 ↔ x ∈ db ∧ x.id ≠ classId) := by
  constructor
  · intro db now classId p c h hb
    have hcond : (true && strTruthy c.baseId) = false := by rw [hb]; rfl
    refine ⟨_, updateClass_single_eq h hcond, ?_, ?_⟩
    · intro j x hx hid
      rw [List.getElem?_map, hx]
      simp [hid]
    · intro j x hx hid
      rw [List.getElem?_map, hx]
      simp [hid]
  · intro db now classId c h hb
    have hcond : (true && strTruthy c.baseId) = false := by rw [hb]; rfl
    refine ⟨_, deleteClass_single_eq h hcond, ?_⟩
    intro x
    simp [List.mem_filter]

/-- Witness for C4: `demoFirst` is a first occurrence (`baseId` null). -/
theorem first_occurrence_single_scope_witness :
    (∃ db2, updateClass [{demoA with baseId := none}, demoB] 150 "A"
        { title := some "new" } true = Except.ok db2 ∧
      (∀ (j : Nat) (x : Class), ([{demoA with baseId := none}, demoB] : List Class)[j]? = some x →
        x.id = "A" → db2[j]? = some (applyPatch x { title := some "new" })) ∧
      (∀ (j : Nat) (x : Class), ([{demoA with baseId := none}, demoB] : List Class)[j]? = some x →
        x.id ≠ "A" → db2[j]? = some x)) ∧
    (∃ db2, deleteClass [{demoA with baseId := none}, demoB] 150 "A" true =
        Except.ok db2 ∧
      ∀ x, x ∈ db2 ↔
        x ∈ ([{demoA with baseId := none}, demoB] : List Class) ∧ x.id ≠ "A") :=
  ⟨first_occurrence_single_scope.1 [{demoA with baseId := none}, demoB] 150 "A"
      { title := some "new" } {demoA with baseId := none} (by decide) rfl,
   first_occurrence_single_scope.2 [{demoA with baseId := none}, demoB] 150 "A"
      {demoA with baseId := none} (by decide) rfl⟩

/-- C9: when a series update/delete targets a class whose own `datetime` is
already in the past, the `datetime ≥ now` filter of the cascade excludes
the very document the caller addressed: the target survives unchanged, and
only same-series documents at or after `now` are affected. -/
theorem past_target_excluded_from_cascade :
    (∀ (db : List Class) (now : Nat) (classId : String) (p : ClassPatch)
        (c : Class) (b : String),
      getDoc db classId = some c → c.baseId = some b → b ≠ "" →
      c.datetime < now →
        ∃ db2, updateClass db now classId p true = Except.ok db2 ∧
          c ∈ db2 ∧
          ∀ (j : Nat) (x : Class), db[j]? = some x → x.datetime < now → db2[j]? = some x) ∧
    (∀ (db : List Class) (now : Nat) (classId : String) (c : Class) (b : String),
      getDoc db classId = some c → c.baseId = some b → b ≠ "" →
      c.datetime < now →
        ∃ db2, deleteClass db now classId true = Except.ok db2 ∧
          c ∈ db2 ∧
          ∀ x, x ∈ db2 ↔ x ∈ db ∧ ¬(x.baseId = some b ∧ now ≤ x.datetime)) := by
  constructor
  · intro db now classId p c b h hb hbne hpast
    refine ⟨_, updateClass_series_eq h hb hbne, ?_, ?_⟩
    · refine List.mem_map.mpr ⟨c, getDoc_mem h, ?_⟩
      have hnc : ¬ inCascade (some b) now c := by
        intro hc
        omega
      simp [hnc]
    · intro j x hx hlt
      rw [List.getElem?_map, hx]
      have hnc : ¬ inCascade (some b) now x := by
        intro hc
        omega
      simp [hnc]
  · intro db now classId c b h hb hbne hpast
    refine ⟨_, deleteClass_series_eq h hb hbne, ?_, ?_⟩
    · refine List.mem_filter.mpr ⟨getDoc_mem h, ?_⟩
      have hnc : ¬ inCascade (some b) now c := by
        intro hc
        omega
      simp [hnc]
    · intro x
      simp [List.mem_filter, inCascade]
      tauto

/-- Witness for C9: the target `demoA` (datetime 100) lies before
`now = 150`, so it survives its own series update/delete. -/
theorem past_target_excluded_from_cascade_witness :
    (∃ db2, updateClass [demoA, demoB] 150 "A" { title := some "new" } true =
        Except.ok db2 ∧
      demoA ∈ db2 ∧
      ∀ (j : Nat) (x : Class), ([demoA, demoB] : List Class)[j]? = some x → x.datetime < 150 →
        db2[j]? = some x) ∧
    (∃ db2, deleteClass [demoA, demoB] 150 "A" true = Except.ok db2 ∧
      demoA ∈ db2 ∧
      ∀ x, x ∈ db2 ↔ x ∈ ([demoA, demoB] : List Class) ∧
        ¬(x.baseId = some "s" ∧ 150 ≤ x.datetime)) :=
  ⟨past_target_excluded_from_cascade.1 [demoA, demoB] 150 "A"
      { title := some "new" } demoA "s" (by decide) rfl (by decide) (by decide),
   past_target_excluded_from_cascade.2 [demoA, demoB] 150 "A" demoA "s"
      (by decide) rfl (by decide) (by decide)⟩

/-- C6: enrollment membership changes are idempotent.  The repository
primitives: `arrayUnion` on an already-present user and `arrayRemove` on an
absent user leave the array unchanged; consequently an enroll of an
everywhere-present user (resp. an unenroll of an everywhere-absent user) is
a complete no-op on the store, on the single-occurrence and the series-wide
path alike. -/
theorem enrollment_idempotent :
    (∀ (l : List String) (x : String), x ∈ l → arrayUnion l x = l) ∧
    (∀ (l : List String) (x : String), x ∉ l → arrayRemove l x = l) ∧
    (∀ (db : List Class) (classId userId : String) (r : Bool) (c : Class),
      getDoc db classId = some c →
      (∀ x ∈ db, userId ∈ x.enrolledStudents) →
        enrollInClass db classId userId r = Except.ok db) ∧
    (∀ (db : List Class) (classId userId : String) (r : Bool) (c : Class),
      getDoc db classId = some c →
      (∀ x ∈ db, userId ∉ x.enrolledStudents) →
        unenrollFromClass db classId userId r = Except.ok db) := by
  have hunion : ∀ (l : List String) (x : String), x ∈ l → arrayUnion l x = l := by
    intro l x hx
    simp [arrayUnion, hx]
  have hremove : ∀ (l : List String) (x : String), x ∉ l → arrayRemove l x = l := by
    intro l x hx
    refine List.filter_eq_self.mpr ?_
    intro a ha
    have : a ≠ x := fun heq => hx (heq ▸ ha)
    simp [this]
  refine ⟨hunion, hremove, ?_, ?_⟩
  · intro db classId userId r c h hall
    have hfix1 : ∀ x ∈ db,
        (if inCascade c.baseId c.datetime x then
          { x with enrolledStudents := arrayUnion x.enrolledStudents userId }
        else x) = x := by
      intro x hx
      split
      · simp [hunion x.enrolledStudents userId (hall x hx)]
      · rfl
    have hfix2 : ∀ x ∈ db,
        (if x.id = classId then
          { x with enrolledStudents := arrayUnion x.enrolledStudents userId }
        else x) = x := by
      intro x hx
      split
      · simp [hunion x.enrolledStudents userId (hall x hx)]
      · rfl
    simp only [enrollInClass, h]
    split
    · rw [map_eq_self_of hfix1]
    · rw [map_eq_self_of hfix2]
  · intro db classId userId r c h hall
    have hfix1 : ∀ x ∈ db,
        (if inCascade c.baseId c.datetime x then
          { x with enrolledStudents := arrayRemove x.enrolledStudents userId }
        else x) = x := by
      intro x hx
      split
      · simp [hremove x.enrolledStudents userId (hall x hx)]
      · rfl
    have hfix2 : ∀ x ∈ db,
        (if x.id = classId then
          { x with enrolledStudents := arrayRemove x.enrolledStudents userId }
        else x) = x := by
      intro x hx
      split
      · simp [hremove x.enrolledStudents userId (hall x hx)]
      · rfl
    simp only [unenrollFromClass, h]
    split
    · rw [map_eq_self_of hfix1]
    · rw [map_eq_self_of hfix2]

/-- Witness for C6: enrolling the already-everywhere-enrolled user `"v"`
and unenrolling the everywhere-absent user `"w"` both leave the concrete
store untouched. -/
theorem enrollment_idempotent_witness :
    arrayUnion ["v"] "v" = ["v"] ∧
    arrayRemove ["v"] "w" = ["v"] ∧
    enrollInClass [{demoA with enrolledStudents := ["v"]}, demoB] "A" "v" true =
      Except.ok [{demoA with enrolledStudents := ["v"]}, demoB] ∧
    unenrollFromClass [demoA, demoB] "A" "w" true = Except.ok [demoA, demoB] :=
  ⟨enrollment_idempotent.1 ["v"] "v" (by decide),
   enrollment_idempotent.2.1 ["v"] "w" (by decide),
   enrollment_idempotent.2.2.1 [{demoA with enrolledStudents := ["v"]}, demoB]
     "A" "v" true {demoA with enrolledStudents := ["v"]} (by decide)
     (by decide),
   enrollment_idempotent.2.2.2 [demoA, demoB] "A" "w" true demoA (by decide)
     (by decide)⟩

/-- C7: the enrollment operation performs no capacity check.  On the
concrete store `[demoA, demoB]` the caller's `isFull` pre-check (from
`ClassCard.tsx`) passes at the inspected occurrence `demoA`, yet the
series-wide enroll also adds the user to `demoB`, pushing its
`enrolledStudents.size` to 2, strictly above its `maxStudents` of 1. -/
theorem series_enroll_capacity_gap :
    isFull demoA = false ∧
    enrollInClass [demoA, demoB] "A" "u" true =
      Except.ok [{demoA with enrolledStudents := ["u"]},
        {demoB with enrolledStudents := ["v", "u"]}] ∧
    ∃ x ∈ [{demoA with enrolledStudents := ["u"]},
        {demoB with enrolledStudents := ["v", "u"]}],
      x.maxStudents < x.enrolledStudents.length := by
  refine ⟨rfl, rfl, ⟨{demoB with enrolledStudents := ["v", "u"]}, ?_, ?_⟩⟩
  · simp
  · decide

/-- C10: the published-state refresh returns immediately, with the whole
state unchanged, when there is no current user or the current user has no
`schoolId`; the result does not depend on the store contents `db`, so no
query is issued, and the (pure, total) function raises nothing. -/
theorem fetchClasses_guard_noop :
    (∀ (st : StoreState) (db : List Class) (now : Nat),
      st.user = none → fetchClasses st db now = st) ∧
    (∀ (st : StoreState) (db : List Class) (now : Nat) (u : User),
      st.user = some u → u.schoolId = none → fetchClasses st db now = st) := by
  constructor
  · intro st db now h
    simp [fetchClasses, h]
  · intro st db now u h h2
    simp [fetchClasses, h, h2]

/-- Witness for C10 at concrete states with no user / no school. -/
theorem fetchClasses_guard_noop_witness :
    fetchClasses stNoUser [demoA] 5 = stNoUser ∧
    fetchClasses stSpec [demoB] 7 = stSpec :=
  ⟨fetchClasses_guard_noop.1 stNoUser [demoA] 5 rfl,
   fetchClasses_guard_noop.2 stSpec [demoB] 7 userSpec rfl rfl⟩

/-- Counterexample to C8 as stated: the core `updateProfile` itself DOES
validate the current-password requirement.  At this concrete input (email
changed, no current password supplied) the core raises the validation
error, contradicting "the core profile-update operation performs no such
validation and never raises ValidationFailure". -/
theorem updateProfile_validation_counterexample :
    updateProfile stSpec (some "a@x") (fun _ => true) updSpec =
      Except.error "Mot de passe actuel requis pour modifier email ou mot de passe" :=
  rfl

/-- C8 amended: the new-password/confirmation mismatch is validated only by
the caller's input layer (the core never receives the confirmation field),
and the caller's schema also flags a missing current password; but a
credential change requested without the current password is rejected by the
core itself, which raises a validation error. -/
theorem profile_validation_split :
    (∀ (initialEmail : String) (d : ProfileInputs),
      strTruthy d.newPassword = true → d.newPassword ≠ d.confirmPassword →
        "confirmPassword" ∈ profileSchemaIssues initialEmail d) ∧
    (∀ (initialEmail : String) (d : ProfileInputs),
      (d.email ≠ initialEmail ∨ strTruthy d.newPassword = true) →
      strTruthy d.currentPassword = false →
        "currentPassword" ∈ profileSchemaIssues initialEmail d) ∧
    (∀ (st : StoreState) (ae : String) (reauthOk : String → Bool)
        (d : ProfileUpdate) (u : User),
      st.user = some u →
      (d.email ≠ u.email ∨ strTruthy d.newPassword = true) →
      strTruthy d.currentPassword = false →
        updateProfile st (some ae) reauthOk d =
          Except.error
            "Mot de passe actuel requis pour modifier email ou mot de passe") := by
  refine ⟨?_, ?_, ?_⟩
  · intro initialEmail d h1 h2
    simp only [profileSchemaIssues, h1, if_true, List.mem_append]
    right
    right
    simp [h2]
  · intro initialEmail d h1 h2
    have hcond : (d.email ≠ initialEmail ∨ strTruthy d.newPassword = true) ∧
        ¬ strTruthy d.currentPassword = true := by
      constructor
      · exact h1
      · simp [h2]
    simp only [profileSchemaIssues, List.mem_append]
    left
    simp only [if_pos hcond]
    simp
  · intro st ae reauthOk d u h h1 h2
    simp [updateProfile, h, h1, h2]

/-- Witness for the amended C8 at concrete inputs. -/
theorem profile_validation_split_witness :
    "confirmPassword" ∈ profileSchemaIssues "a@x"
      { name := "N", email := "a@x", currentPassword := some "pw",
        newPassword := some "longpw1", confirmPassword := some "other" } ∧
    "currentPassword" ∈ profileSchemaIssues "a@x"
      { name := "N", email := "b@x", currentPassword := none,
        newPassword := none, confirmPassword := none } ∧
    updateProfile stSpec (some "a@x") (fun _ => true) updSpec =
      Except.error "Mot de passe actuel requis pour modifier email ou mot de passe" :=
  ⟨profile_validation_split.1 "a@x"
      { name := "N", email := "a@x", currentPassword := some "pw",
        newPassword := some "longpw1", confirmPassword := some "other" }
      (by decide) (by decide),
   profile_validation_split.2.1 "a@x"
      { name := "N", email := "b@x", currentPassword := none,
        newPassword := none, confirmPassword := none }
      (Or.inl (by decide)) rfl,
   profile_validation_split.2.2 stSpec "a@x" (fun _ => true) updSpec userSpec
      rfl (Or.inl (by decide)) rfl⟩

end Booking
